import Mathlib

/-!
# Verification of the bevy_blender geometry and transform pipeline

This file is a shallow embedding, in Lean 4, of the core of the
`bevy_blender` crate (files `src/lib.rs`, `src/mesh.rs`, `src/material.rs`,
`src/object.rs`), together with theorems settling the specification claims
about it.

Modelling conventions:
* Rust `f32` scalars are modelled as exact rationals (`ℚ`).  All the
  arithmetic the settled claims depend on is exact in `f32` as well
  (small integers, halves and tenths); operations whose exact real value
  leaves `ℚ` (irrational square roots in vector normalization) are
  tracked by an explicit `F3.inexact` marker rather than being invented.
* Rust machine integers are modelled as `Int`/`Nat`, with explicit
  `emod 2^32` where the source casts `i32 as u32`.
* Rust panics (out-of-bounds indexing, field-access failures) are
  modelled as an explicit error value; fallible functions return
  `Except`.
-/

deriving instance DecidableEq for Except

/-- A triple of rationals, modelling a glam `Vec3` of `f32` under exact
arithmetic. -/
abbrev QV3 := ℚ × ℚ × ℚ

/-- Component-wise subtraction of 3-vectors. -/
def qsub (a b : QV3) : QV3 := (a.1 - b.1, a.2.1 - b.2.1, a.2.2 - b.2.2)

/-- Cross product of 3-vectors, as in glam `Vec3::cross`. -/
def qcross (a b : QV3) : QV3 :=
  ( a.2.1 * b.2.2 - a.2.2 * b.2.1
  , a.2.2 * b.1 - a.1 * b.2.2
  , a.1 * b.2.1 - a.2.1 * b.1 )

/-- Squared Euclidean norm of a 3-vector. -/
def qnormSq (a : QV3) : ℚ := a.1 * a.1 + a.2.1 * a.2.1 + a.2.2 * a.2.2

/-- The value of an `f32` 3-vector produced by the normal pipeline.
`val v` is an exactly-tracked rational value; `nan` records that every
component is IEEE NaN (produced by normalizing the zero vector: glam
`Vec3::normalize` multiplies by the reciprocal of the length, and for the
zero vector `0 × ∞ = NaN`); `inexact` records a finite computation whose
exact real value is not rational and is therefore not tracked by this
model. -/
inductive F3 where
  | val (v : QV3) : F3
  | inexact : F3
  | nan : F3
deriving DecidableEq

/-- Addition on modelled `f32` vectors: exact values add exactly, NaN
propagates (IEEE: NaN + x = NaN), and untracked values stay untracked. -/
def fadd : F3 → F3 → F3
  | F3.nan, _ => F3.nan
  | _, F3.nan => F3.nan
  | F3.inexact, _ => F3.inexact
  | _, F3.inexact => F3.inexact
  | F3.val a, F3.val b => F3.val (a.1 + b.1, a.2.1 + b.2.1, a.2.2 + b.2.2)

/-- Rational square root: `some r` iff `q = r * r` with `0 ≤ r` and such a
rational `r` exists. -/
def ratSqrt (q : ℚ) : Option ℚ :=
  let n := q.num.toNat
  let sn := Nat.sqrt n
  let sd := Nat.sqrt q.den
  if 0 ≤ q.num ∧ sn * sn = n ∧ sd * sd = q.den then some ((sn : ℚ) / (sd : ℚ))
  else none

/-- Models glam `Vec3::normalize` (`src/mesh.rs` uses it on face normals and
accumulated vertex normals).  Normalizing the zero vector yields NaN in
every component; a non-zero vector is divided by its length, tracked
exactly when the length is rational and marked `inexact` otherwise. -/
def vnormalize (a : QV3) : F3 :=
  if qnormSq a = 0 then F3.nan
  else
    match ratSqrt (qnormSq a) with
    | some r => F3.val (a.1 / r, a.2.1 / r, a.2.2 / r)
    | none => F3.inexact

/-- Normalization lifted to modelled `f32` values: NaN stays NaN
(normalizing a NaN vector is NaN), untracked stays untracked. -/
def fnormalize : F3 → F3
  | F3.val v => vnormalize v
  | F3.inexact => F3.inexact
  | F3.nan => F3.nan

/-- Errors produced while converting a single record
(`BevyBlenderError` variants used in `mesh.rs`/`material.rs`, plus an
explicit marker for Rust panics such as out-of-bounds indexing). -/
inductive RErr where
  | invalidInstanceType (expected found : String) : RErr
  | unsupportedAsset (asset_type : String) : RErr
  | panicked : RErr
deriving DecidableEq

/-- One element of the `mpoly` array of a Blender mesh record: the face
descriptor fields read by `instance_to_mesh` (`loopstart`, `totloop`),
both `i32` in the DNA. -/
structure MPoly where
  loopstart : Int
  totloop : Int
deriving DecidableEq

/-- One element of the `mvert` array: vertex position `co` (three `f32`)
and packed normal `no` (three `i16`). -/
structure MVert where
  co : QV3
  no : Int × Int × Int
deriving DecidableEq

/-- The fields of a Blender mesh record (`Blend::Instance` of DNA type
`Mesh`) that `instance_to_mesh` reads: the instance type name and the
`mpoly`, `mloop` (its `v` field), `mloopuv` (its `uv` field) and `mvert`
arrays. -/
structure MeshRecord where
  type_name : String
  mpoly : List MPoly
  mloop : List Int
  mloopuv : List (ℚ × ℚ)
  mvert : List MVert
deriving DecidableEq

/-- `2^32`, the modulus of the `i32 as u32` cast. -/
def u32Mod : Int := 4294967296

/-- Reads `count` successive entries of `mloop`, starting at (signed)
index `start`, casting each `v` field `as u32` — the body of the
`for i in start..end` loop of `instance_to_mesh` (mesh.rs lines 56-58)
and of `calculate_vertex_normals` (lines 155-157).  A negative or
out-of-range index is an out-of-bounds panic (`i as usize` on a negative
`i32` yields a huge index). -/
def extractLoopGo (mloop : List Int) : Int → Nat → Except RErr (List Nat)
  | _, 0 => .ok []
  | start, k + 1 =>
    if h : 0 ≤ start ∧ start.toNat < mloop.length then
      match extractLoopGo mloop (start + 1) k with
      | .ok rest => .ok (((mloop.get ⟨start.toNat, h.2⟩).emod u32Mod).toNat :: rest)
      | .error e => .error e
    else .error .panicked

/-- Materializes one face's ordered loop of vertex indices:
`for i in loopstart..loopstart+totloop { faceloop.push(loops[i].v as u32) }`.
The `i32` range `start..end` has `max 0 (end − start) = totloop.toNat`
iterations. -/
def extractLoop (mloop : List Int) (loopstart totloop : Int) : Except RErr (List Nat) :=
  extractLoopGo mloop loopstart totloop.toNat

/-- The loop of every face of the mesh, in face order. -/
def extractFaceloops : List MPoly → List Int → Except RErr (List (List Nat))
  | [], _ => .ok []
  | p :: ps, mloop =>
    match extractLoop mloop p.loopstart p.totloop with
    | .error e => .error e
    | .ok fl =>
      match extractFaceloops ps mloop with
      | .ok rest => .ok (fl :: rest)
      | .error e => .error e

/-- Cursor wrap-around of the ear-clipping loop:
`if i >= faceloop.len() { i = 0 }`. -/
def wrapIdx (len i : Nat) : Nat := if len ≤ i then 0 else i

/-- The ear-clipping `while faceloop.len() > 3` loop of `instance_to_mesh`
(mesh.rs lines 63-89), started at cursor `i`.  Returns the list of ears
pushed onto `faces` together with the final remaining `faceloop`.
Each iteration reads the entries at the (wrapped) cursor, its successor
and the successor's successor, pushes them as one ear, and removes the
middle one (`faceloop.remove(i)`), leaving the cursor value for the next
iteration.  The `fuel` argument makes the recursion structural: the
source loop terminates because every iteration removes one element, so
the initial loop length (passed by `earClipLoop`) bounds the iteration
count and the fuel is never exhausted. -/
def earClipGo : Nat → List Nat → Nat → List (List Nat) × List Nat
  | 0, faceloop, _ => ([], faceloop)
  | fuel + 1, faceloop, i =>
    if 3 < faceloop.length then
      let i0 := wrapIdx faceloop.length i
      let i1 := wrapIdx faceloop.length (i0 + 1)
      let j := wrapIdx faceloop.length (i1 + 1)
      let face := [faceloop.getD i0 0, faceloop.getD i1 0, faceloop.getD j 0]
      let res := earClipGo fuel (faceloop.eraseIdx i1) i1
      (face :: res.1, res.2)
    else ([], faceloop)

/-- The ear-clipping loop run to completion from cursor 0 state. -/
def earClipLoop (faceloop : List Nat) (i : Nat) : List (List Nat) × List Nat :=
  earClipGo faceloop.length faceloop i

/-- Triangulation of one face loop as performed by `instance_to_mesh`:
run the ear-clipping loop from cursor 0, then push the remaining loop as
the final face (`faces.push(faceloop)`, mesh.rs line 91). -/
def triangulateFace (faceloop : List Nat) : List (List Nat) :=
  let res := earClipLoop faceloop 0
  res.1 ++ [res.2]

/-- The six index-buffer entries one triangle contributes
(mesh.rs lines 94-99): `face[2], face[0], face[1]` written twice. -/
def faceIndices (face : List Nat) : List Nat :=
  [face.getD 2 0, face.getD 0 0, face.getD 1 0,
   face.getD 2 0, face.getD 0 0, face.getD 1 0]

/-- Emits the index buffer for a list of triangles.  `face[2]` (and
`face[0]`, `face[1]`) on a face of fewer than three entries is an
out-of-bounds panic. -/
def buildIndices : List (List Nat) → Except RErr (List Nat)
  | [] => .ok []
  | f :: fs =>
    if f.length < 3 then .error .panicked
    else
      match buildIndices fs with
      | .ok rest => .ok (faceIndices f ++ rest)
      | .error e => .error e

/-- Grows the accumulated-normal list with zero vectors until index `v`
exists: `while vertex >= normals.len() { normals.push(Vec3::ZERO) }`
(mesh.rs lines 170-172). -/
def growTo (ns : List F3) (v : Nat) : List F3 :=
  ns ++ List.replicate (v + 1 - ns.length) (F3.val (0, 0, 0))

/-- Adds the face normal `n` into the running normal of vertex `v`
(`normals[vertex] += n`, mesh.rs line 174), growing the list first. -/
def accAt (ns : List F3) (v : Nat) (n : F3) : List F3 :=
  let g := growTo ns v
  g.set v (fadd (g.getD v (F3.val (0, 0, 0))) n)

/-- Accumulates one face's normal into every vertex of its loop
(`for vertex in faceloop`, mesh.rs lines 168-175). -/
def accumFace (ns : List F3) (faceloop : List Nat) (n : F3) : List F3 :=
  faceloop.foldl (fun ns v => accAt ns v n) ns

/-- The face normal of one loop (mesh.rs lines 159-166): the cross
product of the closing edge `v1→v_last` and the first edge `v1→v2`,
normalized.  Reading `faceloop[0]`, `faceloop[1]` or an out-of-range
position is a panic. -/
def faceNormal (positions : List QV3) (faceloop : List Nat) : Except RErr F3 :=
  match faceloop with
  | [] => .error .panicked
  | f0 :: rest =>
    match rest.head? with
    | none => .error .panicked
    | some f1 =>
      let fz := (f0 :: rest).getLast (by simp)
      match positions[f0]?, positions[f1]?, positions[fz]? with
      | some v1, some v2, some v3 =>
        let e1 := qsub v2 v1
        let e2 := qsub v1 v3
        .ok (vnormalize (qcross e2 e1))
      | _, _, _ => .error .panicked

/-- The body of the per-face loop of `calculate_vertex_normals`
(mesh.rs lines 151-176): re-extract the face's loop, compute its normal,
and accumulate it into every participating vertex. -/
def cvnStep (mloop : List Int) (positions : List QV3) (ns : List F3) (p : MPoly) :
    Except RErr (List F3) :=
  match extractLoop mloop p.loopstart p.totloop with
  | .error e => .error e
  | .ok faceloop =>
    match faceNormal positions faceloop with
    | .error e => .error e
    | .ok n => .ok (accumFace ns faceloop n)

/-- Embeds `calculate_vertex_normals` (mesh.rs lines 144-185): for each
face, re-extract its loop, compute the face normal, and accumulate it
into every participating vertex; finally normalize every accumulated
vertex normal (`normal.normalize()`, applied unconditionally). -/
def calculate_vertex_normals (mpoly : List MPoly) (mloop : List Int)
    (positions : List QV3) : Except RErr (List F3) :=
  match mpoly.foldlM (cvnStep mloop positions) ([] : List F3) with
  | .error e => .error e
  | .ok ns => .ok (ns.map fnormalize)

/-- The packed-normal decoding of the version `< 3` branch
(mesh.rs lines 115-120): each signed 16-bit component is divided by
`i16::MAX = 32767`, then the axes are permuted `[n0, n2, -n1]`. -/
def packedNormal (vert : MVert) : F3 :=
  F3.val ( (vert.no.1 : ℚ) / 32767
         , (vert.no.2.2 : ℚ) / 32767
         , -((vert.no.2.1 : ℚ) / 32767) )

/-- The UV overwrite loop (mesh.rs lines 127-130):
`for i in 0..blender_uvs.len() { uvs[blender_loops[i].v as usize] = uv }`.
The `i`-th UV record is paired with the `i`-th loop entry; running out of
loop entries, a negative `v`, or `v` out of range of `uvs` is a panic. -/
def applyUVs : List Int → List (ℚ × ℚ) → List (ℚ × ℚ) → Except RErr (List (ℚ × ℚ))
  | _, [], uvs => .ok uvs
  | [], _ :: _, _ => .error .panicked
  | v :: vs, uv :: uvrest, uvs =>
    if 0 ≤ v ∧ v.toNat < uvs.length then applyUVs vs uvrest (uvs.set v.toNat uv)
    else .error .panicked

/-- The position attribute of one vertex (mesh.rs lines 109-112): the
`co` coordinate with the `[p0, p2, -p1]` axis permutation. -/
def vertPosition (v : MVert) : QV3 := (v.co.1, v.co.2.2, -v.co.2.1)

/-- The Bevy mesh produced by `instance_to_mesh`: triangle-list index
buffer and per-vertex position / normal / UV attributes. -/
structure EMesh where
  indices : List Nat
  positions : List QV3
  normals : List F3
  uvs : List (ℚ × ℚ)
deriving DecidableEq

/-- Embeds `instance_to_mesh` (mesh.rs lines 21-141).  Steps, in source
order: reject non-`Mesh` instances; extract every face loop and emit the
triangulated, duplicated index buffer; copy positions with the
`[p0, p2, -p1]` axis permutation; decode packed normals (format major
version ≤ 2) or compute vertex normals (major ≥ 3); apply the UV
overwrite loop to a zero-initialized UV list.  The source interleaves
loop extraction and index emission per face; since both are pure and
every failure is the same panic value, extracting all loops first is
observationally identical. -/
def instance_to_mesh (rec : MeshRecord) (blend_version : Nat × Nat × Nat) :
    Except RErr EMesh :=
  if rec.type_name = "Mesh" then
    match extractFaceloops rec.mpoly rec.mloop with
    | .error e => .error e
    | .ok faceloops =>
      match buildIndices (faceloops.map triangulateFace).flatten with
      | .error e => .error e
      | .ok indices =>
        let positions := rec.mvert.map vertPosition
        let normalsRes :=
          if blend_version.1 ≤ 2 then .ok (rec.mvert.map packedNormal)
          else calculate_vertex_normals rec.mpoly rec.mloop positions
        match normalsRes with
        | .error e => .error e
        | .ok normals =>
          match applyUVs rec.mloop rec.mloopuv
              (List.replicate rec.mvert.length ((0 : ℚ), (0 : ℚ))) with
          | .error e => .error e
          | .ok uvs => .ok { indices := indices, positions := positions
                           , normals := normals, uvs := uvs }
  else .error (.invalidInstanceType "Mesh" rec.type_name)

/-- The fields of a Blender material record read by
`instance_to_material` (material.rs): instance type name, the
`use_nodes` flag (a `char` read as `u8`), and the flat scalar fields. -/
structure MatRecord where
  type_name : String
  use_nodes : Nat
  r : ℚ
  g : ℚ
  b : ℚ
  a : ℚ
  roughness : ℚ
  metallic : ℚ
  spec : ℚ
deriving DecidableEq

/-- The Bevy `StandardMaterial` fields this crate sets.  A field the
source leaves to `..Default::default()` is `none` (its value is the
engine default, external to this repository and irrelevant to every
claim). -/
structure BMat where
  base_color : ℚ × ℚ × ℚ × ℚ
  perceptual_roughness : ℚ
  metallic : Option ℚ
  reflectance : ℚ
deriving DecidableEq

/-- Embeds `instance_to_material` (material.rs lines 19-52): reject
non-`Material` instances; if `use_nodes == 0` copy the scalar fields
into a `StandardMaterial`; otherwise fail with `UnsupportedAsset`. -/
def instance_to_material (rec : MatRecord) (_blend_version : Nat × Nat × Nat) :
    Except RErr BMat :=
  if rec.type_name = "Material" then
    if rec.use_nodes = 0 then
      .ok { base_color := (rec.r, rec.g, rec.b, rec.a)
          , perceptual_roughness := rec.roughness
          , metallic := some rec.metallic
          , reflectance := rec.spec }
    else .error (.unsupportedAsset "Nodes based material")
  else .error (.invalidInstanceType "Material" rec.type_name)

/-- The substitute material built at the top of the material loop of
`load_blend_assets` (lib.rs lines 158-163): color `rgb(0.9, 0.4, 0.3)`,
reflectance `0.1`, perceptual roughness `0.5`. -/
def unsupported_material : BMat :=
  { base_color := (9/10, 4/10, 3/10, 1)
  , perceptual_roughness := 1/2
  , metallic := none
  , reflectance := 1/10 }

/-- The asset published under the label `bevy_blender_missing_material`
(lib.rs lines 165-173): color `rgb(1.0, 0.0, 0.5)`, reflectance `0.0`,
perceptual roughness `0.0`. -/
def missing_material : BMat :=
  { base_color := (1, 0, 1/2, 1)
  , perceptual_roughness := 0
  , metallic := none
  , reflectance := 0 }

/-- A labeled asset published by the loader. -/
inductive Asset where
  | mesh (m : EMesh) : Asset
  | material (m : BMat) : Asset
deriving DecidableEq

/-- File-level loading errors of `load_blend_assets`. -/
inductive LoadErr where
  | panicked : LoadErr
  | invalidBlendFile (blend_file : String) : LoadErr
  | meshFailed (e : RErr) : LoadErr
deriving DecidableEq

/-- The typed record content of one parsed .blend file, as exposed by the
external `blend` crate: the mesh records (keyed by their `id.name`,
which carries the 2-letter `ME` prefix), the material records (`MA`
prefix), and the header version triple. -/
structure BlendFileData where
  meshes : List (String × MeshRecord)
  materials : List (String × MatRecord)
  version : Nat × Nat × Nat
deriving DecidableEq

/-- The 7-byte magic signature `b"BLENDER"`. -/
def magicBytes : List Nat := [66, 76, 69, 78, 68, 69, 82]

/-- Models Rust `str::starts_with` as used by the loader's underscore
filter (`label.starts_with("ME_")` / `("MA_")`): the label's first
characters equal the tag.  (Both tags are pure ASCII, so the char-list
comparison coincides with the byte comparison the source performs.) -/
def strStartsWith (s tag : String) : Bool :=
  s.data.take tag.data.length == tag.data

/-- The mesh loop of `load_blend_assets` (lib.rs lines 143-156): each
non-underscore mesh record is converted and published; a conversion
failure is propagated by `?`, aborting the whole load. -/
def loadMeshes (version : Nat × Nat × Nat) :
    List (String × MeshRecord) → List (String × Asset) →
    Except LoadErr (List (String × Asset))
  | [], acc => .ok acc
  | (label, rec) :: rest, acc =>
    if strStartsWith label "ME_" then loadMeshes version rest acc
    else
      match instance_to_mesh rec version with
      | .ok m => loadMeshes version rest (acc ++ [(label, Asset.mesh m)])
      | .error e => .error (.meshFailed e)

/-- The material loop of `load_blend_assets` (lib.rs lines 175-205):
each non-underscore material record is converted; on success it is
published, on failure `unsupported_material` is published under the
same label with a warning.  This loop never aborts. -/
def loadMaterials (version : Nat × Nat × Nat) :
    List (String × MatRecord) → List (String × Asset) → List (String × Asset)
  | [], acc => acc
  | (label, rec) :: rest, acc =>
    if strStartsWith label "MA_" then loadMaterials version rest acc
    else
      match instance_to_material rec version with
      | .ok m => loadMaterials version rest (acc ++ [(label, Asset.material m)])
      | .error _ =>
        loadMaterials version rest (acc ++ [(label, Asset.material unsupported_material)])

/-- Embeds `load_blend_assets` (lib.rs lines 127-210): check the 7-byte
magic signature (`bytes[0..7]` — slicing a buffer shorter than 7 bytes
is a panic); then run the mesh loop, publish
`bevy_blender_missing_material`, and run the material loop.  The result
is the ordered list of published labeled assets. -/
def load_blend_assets (bytes : List Nat) (path : String) (file : BlendFileData) :
    Except LoadErr (List (String × Asset)) :=
  if bytes.length < 7 then .error .panicked
  else if bytes.take 7 ≠ magicBytes then .error (.invalidBlendFile path)
  else
    match loadMeshes file.version file.meshes [] with
    | .error e => .error e
    | .ok meshAssets =>
      .ok (loadMaterials file.version file.materials
        (meshAssets ++ [("bevy_blender_missing_material", Asset.material missing_material)]))

/-- The scale/rotation/translation decomposition of an affine transform,
in the source (right-handed, Z-up) convention.  The rotation is carried
as the Euler-angle triple that glam's
`Quat::to_euler(EulerRot::XYZ)` returns for it; the angles are kept
symbolic (exact rationals) since the claims concern scale and
translation. -/
structure SRT where
  scale : QV3
  eulerXYZ : QV3
  translation : QV3
deriving DecidableEq

/-- A rotation built by glam `Quat::from_euler(EulerRot::XZY, a, b, c)`;
the trigonometric recomposition is external library code, so the
constructor records its arguments symbolically. -/
inductive RotSpec where
  | fromEulerXZY (a b c : ℚ) : RotSpec
deriving DecidableEq

/-- A decomposed transform in the target (right-handed, Y-up)
convention. -/
structure SRTOut where
  scale : QV3
  rotation : RotSpec
  translation : QV3
deriving DecidableEq

/-- Embeds `right_hand_zup_to_right_hand_yup` (lib.rs lines 213-227) at
the level of the scale/rotation/translation decomposition: scale
`(sx, sy, sz) ↦ (sx, sz, sy)`; rotation rebuilt with
`Quat::from_euler(EulerRot::XZY, rx, -ry, rz)`; translation
`(x, y, z) ↦ (x, z, -y)`.  The function is total: it has no failure
mode. -/
def right_hand_zup_to_right_hand_yup (m : SRT) : SRTOut :=
  { scale := (m.scale.1, m.scale.2.2, m.scale.2.1)
  , rotation := RotSpec.fromEulerXZY m.eulerXYZ.1 (-m.eulerXYZ.2.1) m.eulerXYZ.2.2
  , translation := (m.translation.1, m.translation.2.2, -m.translation.2.1) }

/-- A 4×4 rational matrix, modelling a glam `Mat4` under exact
arithmetic. -/
abbrev Mat4Q := Matrix (Fin 4) (Fin 4) ℚ

/-- Embeds glam `Mat4::inverse` under exact arithmetic: the adjugate
scaled by the reciprocal of the determinant. -/
def mat4inv (m : Mat4Q) : Mat4Q := m.det⁻¹ • m.adjugate

/-- The local matrix computed by `spawn_children_objects`
(object.rs line 309): `parent_matrix.inverse().mul_mat4(&world_matrix)`,
i.e. `P⁻¹ × C`. -/
def localMatrix (parent_matrix world_matrix : Mat4Q) : Mat4Q :=
  mat4inv parent_matrix * world_matrix

/-- The `Transform` of a spawned bundle.  `fromConvertedMatrix m`
records that the source built the transform as
`Transform::from_matrix(right_hand_zup_to_right_hand_yup(&m))`; the
matrix decomposition those external calls perform is kept symbolic.
`overridden t` is a caller-supplied override used verbatim. -/
inductive ETransform where
  | fromConvertedMatrix (m : Mat4Q) : ETransform
  | overridden (tag : String) : ETransform

/-- One material slot of a mesh's `mat` list: the material's `id.name`
and its `use_nodes` flag. -/
structure MatSlot where
  name : String
  use_nodes : Nat

/-- The fields of a Blender object record (`OB` block) read by
object.rs: `id.name` (with the `OB` prefix), the optional parent's
`id.name` (`none` when `is_valid("parent")` is false), the mesh data's
`id.name`, the mesh data's `mat` list (`none` when `is_valid("mat")` is
false — reading it then is a panic), and the raw world matrix `obmat`. -/
structure ObjRecord where
  name : String
  parent : Option String
  data_name : String
  mats : Option (List MatSlot)
  obmat : Mat4Q

/-- The components of a `BlenderObjectBundle` the source fills: the mesh
asset path, the material asset path (`none` = `Handle::default()`), and
the transform. -/
structure EBundle where
  mesh : String
  material : Option String
  transform : ETransform

/-- A spawned entity hierarchy: one bundle and its recursively spawned
children. -/
inductive SpawnTree where
  | node (bundle : EBundle) (children : List SpawnTree) : SpawnTree

/-- Failures of a spawn request: the `MissingAsset` error value, a Rust
panic, or exhaustion of the fuel bounding the modelled recursion (the
source recursion has no such bound; a computation that is `outOfFuel`
for every fuel value models non-termination). -/
inductive SpawnErr where
  | missingAsset (asset_name blend_file : String) : SpawnErr
  | panicked : SpawnErr
  | outOfFuel : SpawnErr
deriving DecidableEq

/-- Embeds `get_object_by_name` (object.rs lines 121-129): first object
record whose `id.name` equals `name`. -/
def get_object_by_name (objs : List ObjRecord) (name : String) : Option ObjRecord :=
  objs.find? (fun o => o.name == name)

/-- Embeds `get_children` (object.rs lines 132-142): every object whose
parent reference is valid and whose parent's `id.name` equals `name`. -/
def get_children (objs : List ObjRecord) (name : String) : List ObjRecord :=
  objs.filter (fun o => o.parent == some name)

/-- The material handle chosen by `spawn_children_objects` and the
non-override path of `spawn_blender_object_with_error`: the first `mat`
slot if any, else the `bevy_blender_missing_material` label. -/
def childMaterialHandle (blender_file : String) (mats : List MatSlot) : String :=
  match mats.head? with
  | none => blender_file ++ "#" ++ "bevy_blender_missing_material"
  | some m => blender_file ++ "#" ++ m.name

/-- Embeds the recursive `spawn_children_objects` (object.rs lines
277-334): build the child's bundle (mesh handle, first-slot material
handle — reading the `mat` field without a validity check, a panic when
it is invalid — and the coordinate-converted local matrix
`P⁻¹ × obmat`), then recurse into `get_children` of the child's own
name, passing the child's world matrix as the new parent matrix.  The
source recursion is unbounded; `fuel` bounds the model, and running out
of fuel at every bound models divergence. -/
def spawn_children_objects (objs : List ObjRecord) (blender_file : String) :
    Nat → ObjRecord → Mat4Q → Except SpawnErr SpawnTree
  | 0, _, _ => .error .outOfFuel
  | fuel + 1, obj, parent_matrix =>
    match obj.mats with
    | none => .error .panicked
    | some mats =>
      let bundle : EBundle :=
        { mesh := blender_file ++ "#" ++ obj.data_name
        , material := some (childMaterialHandle blender_file mats)
        , transform := ETransform.fromConvertedMatrix (localMatrix parent_matrix obj.obmat) }
      match (get_children objs obj.name).mapM
          (fun c => spawn_children_objects objs blender_file fuel c obj.obmat) with
      | .ok kids => .ok (SpawnTree.node bundle kids)
      | .error e => .error e

/-- Embeds `spawn_blender_object_with_error` (object.rs lines 187-274):
look up `OB<root_object_name>` (a missing root is the `MissingAsset`
error, returned before anything is spawned); build the root bundle
(mesh handle, first-slot material handle behind an `is_valid` check,
and either the override transform or the converted world matrix); spawn
it, and if `spawn_children` is set, recursively spawn every child
against the root's world matrix. -/
def spawn_blender_object_with_error (objs : List ObjRecord)
    (blender_file root_object_name : String) (spawn_children : Bool)
    (parent_transform : Option ETransform) (fuel : Nat) :
    Except SpawnErr SpawnTree :=
  match get_object_by_name objs ("OB" ++ root_object_name) with
  | none => .error (.missingAsset root_object_name blender_file)
  | some obj =>
    let mesh := blender_file ++ "#" ++ obj.data_name
    let material :=
      match obj.mats with
      | none => blender_file ++ "#" ++ "bevy_blender_missing_material"
      | some mats => childMaterialHandle blender_file mats
    let transform :=
      match parent_transform with
      | some t => t
      | none => ETransform.fromConvertedMatrix obj.obmat
    let kidsRes :=
      if spawn_children then
        (get_children objs ("OB" ++ root_object_name)).mapM
          (fun c => spawn_children_objects objs blender_file fuel c obj.obmat)
      else .ok []
    match kidsRes with
    | .ok kids =>
      .ok (SpawnTree.node { mesh := mesh, material := some material
                          , transform := transform } kids)
    | .error e => .error e

/-- Embeds the public `spawn_blender_object` (object.rs lines 164-185):
run `spawn_blender_object_with_error`; on success there is nothing to
report, on failure the error is written to the log (`error!`) and
swallowed.  The returned pair is (spawned hierarchy if any, logged
errors); the function is total — no panic, no abort. -/
def spawn_blender_object (objs : List ObjRecord)
    (blender_file root_object_name : String) (spawn_children : Bool)
    (parent_transform : Option ETransform) (fuel : Nat) :
    Option SpawnTree × List SpawnErr :=
  match spawn_blender_object_with_error objs blender_file root_object_name
      spawn_children parent_transform fuel with
  | .ok t => (some t, [])
  | .error e => (none, [e])

/-- Embeds `BlenderObjectBundle::new_from_blend` (object.rs lines
65-117): look up `OB<object_name>` (missing → `MissingAsset`); read the
`mat` iterator without a validity check (a panic when invalid); the
material handle is the first slot's label if its `use_nodes` flag is
clear, else `Handle::default()`; the transform is the converted world
matrix. -/
def new_from_blend (objs : List ObjRecord) (blender_file object_name : String) :
    Except SpawnErr EBundle :=
  match get_object_by_name objs ("OB" ++ object_name) with
  | none => .error (.missingAsset object_name blender_file)
  | some obj =>
    match obj.mats with
    | none => .error .panicked
    | some mats =>
      let material :=
        match mats.head? with
        | none => none
        | some m =>
          if m.use_nodes = 0 then some (blender_file ++ "#" ++ m.name)
          else none
      .ok { mesh := blender_file ++ "#" ++ obj.data_name
          , material := material
          , transform := ETransform.fromConvertedMatrix obj.obmat }

/-! ## Concrete inputs used by counterexamples and witnesses -/

/-- A version-3 mesh record with four vertices and one quad face whose
loop `[0, 1, 5, 2]` references the out-of-range vertex index 5 in a
middle position (only the first, second and last loop entries index
`positions`, so conversion succeeds). -/
def cexMesh : MeshRecord :=
  { type_name := "Mesh"
  , mpoly := [{ loopstart := 0, totloop := 4 }]
  , mloop := [0, 1, 5, 2]
  , mloopuv := []
  , mvert :=
      [ { co := (0, 0, 0), no := (0, 0, 0) }
      , { co := (1, 0, 0), no := (0, 0, 0) }
      , { co := (1, 1, 0), no := (0, 0, 0) }
      , { co := (0, 1, 0), no := (0, 0, 0) } ] }

/-- A version-3 mesh record with four vertices and one triangle
`[0, 1, 2]`: every loop index is in range, but vertex 3 is referenced by
no face, so the computed normal list has only three entries. -/
def cexMesh2 : MeshRecord :=
  { type_name := "Mesh"
  , mpoly := [{ loopstart := 0, totloop := 3 }]
  , mloop := [0, 1, 2]
  , mloopuv := []
  , mvert :=
      [ { co := (0, 0, 0), no := (0, 0, 0) }
      , { co := (1, 0, 0), no := (0, 0, 0) }
      , { co := (0, 1, 0), no := (0, 0, 0) }
      , { co := (5, 5, 5), no := (0, 0, 0) } ] }

/-- A well-formed single-triangle mesh record (three vertices, one face
`[0, 1, 2]`), used as a witness input. -/
def witMesh : MeshRecord :=
  { type_name := "Mesh"
  , mpoly := [{ loopstart := 0, totloop := 3 }]
  , mloop := [0, 1, 2]
  , mloopuv := []
  , mvert :=
      [ { co := (0, 0, 0), no := (0, 0, 0) }
      , { co := (1, 0, 0), no := (0, 0, 0) }
      , { co := (0, 1, 0), no := (0, 0, 0) } ] }

/-- The mesh `instance_to_mesh` produces from `witMesh` under version
`(3, 0, 0)`. -/
def witMeshOut : EMesh :=
  { indices := [2, 0, 1, 2, 0, 1]
  , positions := [(0, 0, 0), (1, 0, 0), (0, 0, -1)]
  , normals := [F3.val (0, 1, 0), F3.val (0, 1, 0), F3.val (0, 1, 0)]
  , uvs := [(0, 0), (0, 0), (0, 0)] }

/-- A version-3 mesh record with four vertices and one triangle
`[0, 2, 3]`: vertex 1 is touched by no face, so its accumulated normal
stays the zero vector and the final unconditional `normalize` produces
NaN. -/
def c4Mesh : MeshRecord :=
  { type_name := "Mesh"
  , mpoly := [{ loopstart := 0, totloop := 3 }]
  , mloop := [0, 2, 3]
  , mloopuv := []
  , mvert :=
      [ { co := (0, 0, 0), no := (0, 0, 0) }
      , { co := (9, 9, 9), no := (0, 0, 0) }
      , { co := (1, 0, 0), no := (0, 0, 0) }
      , { co := (0, 1, 0), no := (0, 0, 0) } ] }

/-- A record listed under the mesh block code whose instance type is not
`Mesh`: `instance_to_mesh` rejects it with `InvalidInstanceType`. -/
def badRec : MeshRecord :=
  { type_name := "Object", mpoly := [], mloop := [], mloopuv := [], mvert := [] }

/-- A trivially well-formed (empty) mesh record. -/
def goodRec : MeshRecord :=
  { type_name := "Mesh", mpoly := [], mloop := [], mloopuv := [], mvert := [] }

/-- A file whose first mesh record fails conversion while the second is
well-formed. -/
def c3File : BlendFileData :=
  { meshes := [("MEBad", badRec), ("MEGood", goodRec)]
  , materials := []
  , version := (2, 93, 0) }

/-- A material record with the node-graph flag set. -/
def nodeMat : MatRecord :=
  { type_name := "Material", use_nodes := 1
  , r := 0, g := 0, b := 0, a := 0, roughness := 0, metallic := 0, spec := 0 }

/-- A file holding a single node-based material labeled `MAFoo`. -/
def c7File : BlendFileData :=
  { meshes := [], materials := [("MAFoo", nodeMat)], version := (2, 93, 0) }

/-- Object record `OBA`, whose parent reference names `OBB`. -/
def cycA : ObjRecord :=
  { name := "OBA", parent := some "OBB", data_name := "MECube"
  , mats := some [], obmat := 1 }

/-- Object record `OBB`, whose parent reference names `OBA` — together
with `cycA` it forms a parent-reference cycle. -/
def cycB : ObjRecord :=
  { name := "OBB", parent := some "OBA", data_name := "MECube"
  , mats := some [], obmat := 1 }

/-- An object set containing a two-object parent cycle. -/
def cycObjs : List ObjRecord := [cycA, cycB]

/-- A root object with no parent, used as a witness input. -/
def wObjRoot : ObjRecord :=
  { name := "OBRoot", parent := none, data_name := "MECube"
  , mats := some [], obmat := 1 }

/-- A single child of `OBRoot`, used as a witness input. -/
def wObjChild : ObjRecord :=
  { name := "OBChild", parent := some "OBRoot", data_name := "MECube"
  , mats := some [], obmat := 1 }

/-- An acyclic object set: one child under `OBRoot`. -/
def wObjs : List ObjRecord := [wObjChild]

/-! ## Lemmas: ear-clipping triangulation (claim C1) -/

theorem wrapIdx_lt (len i : Nat) (h : 0 < len) : wrapIdx len i < len := by
  unfold wrapIdx; split <;> omega

theorem List.length_eraseIdx_lt {α : Type} (l : List α) (i : Nat) (h : i < l.length) :
    (l.eraseIdx i).length = l.length - 1 := by
  rw [List.length_eraseIdx]; split <;> omega

theorem earClipGo_small (fuel : Nat) (l : List Nat) (i : Nat) (h : ¬ 3 < l.length) :
    earClipGo fuel l i = ([], l) := by
  cases fuel with
  | zero => rfl
  | succ fuel => rw [earClipGo, if_neg h]

theorem ec_fst_len (fuel : Nat) : ∀ (l : List Nat) (i : Nat), l.length ≤ fuel + 3 →
    (earClipGo fuel l i).1.length = l.length - 3 := by
  induction fuel with
  | zero =>
    intro l i hl
    rw [earClipGo]
    show (0 : Nat) = l.length - 3
    omega
  | succ fuel ih =>
    intro l i hl
    rw [earClipGo]
    by_cases h : 3 < l.length
    · simp only [if_pos h, List.length_cons]
      have hw := wrapIdx_lt l.length (wrapIdx l.length i + 1) (by omega)
      have hlen := List.length_eraseIdx_lt l (wrapIdx l.length (wrapIdx l.length i + 1)) hw
      rw [ih _ _ (by omega), hlen]
      omega
    · simp only [if_neg h, List.length_nil]
      omega

theorem ec_snd_sublist (fuel : Nat) : ∀ (l : List Nat) (i : Nat),
    (earClipGo fuel l i).2.Sublist l := by
  induction fuel with
  | zero =>
    intro l i
    rw [earClipGo]
  | succ fuel ih =>
    intro l i
    rw [earClipGo]
    by_cases h : 3 < l.length
    · simp only [if_pos h]
      exact (ih _ _).trans (List.eraseIdx_sublist l _)
    · simp only [if_neg h]
      exact List.Sublist.refl l

theorem ec_snd_len (fuel : Nat) : ∀ (l : List Nat) (i : Nat), l.length ≤ fuel + 3 →
    3 ≤ l.length → (earClipGo fuel l i).2.length = 3 := by
  induction fuel with
  | zero =>
    intro l i hl h3
    rw [earClipGo]
    show l.length = 3
    omega
  | succ fuel ih =>
    intro l i hl h3
    rw [earClipGo]
    by_cases h : 3 < l.length
    · simp only [if_pos h]
      have hw := wrapIdx_lt l.length (wrapIdx l.length i + 1) (by omega)
      have hlen := List.length_eraseIdx_lt l (wrapIdx l.length (wrapIdx l.length i + 1)) hw
      exact ih _ _ (by omega) (by omega)
    · simp only [if_neg h]
      show l.length = 3
      omega

theorem earIdx_spec (len i : Nat) (h : 3 < len) :
    wrapIdx len i < len ∧ wrapIdx len (wrapIdx len i + 1) < len ∧
    wrapIdx len (wrapIdx len (wrapIdx len i + 1) + 1) < len ∧
    wrapIdx len i ≠ wrapIdx len (wrapIdx len i + 1) ∧
    wrapIdx len i ≠ wrapIdx len (wrapIdx len (wrapIdx len i + 1) + 1) ∧
    wrapIdx len (wrapIdx len i + 1) ≠ wrapIdx len (wrapIdx len (wrapIdx len i + 1) + 1) := by
  simp only [wrapIdx]
  split_ifs <;> omega

theorem ec_faces (fuel : Nat) : ∀ (l : List Nat) (i : Nat),
    ∀ t ∈ (earClipGo fuel l i).1,
      t.length = 3 ∧ (∀ v ∈ t, v ∈ l) ∧ (l.Nodup → t.Nodup) := by
  induction fuel with
  | zero =>
    intro l i t ht
    rw [earClipGo] at ht
    simp at ht
  | succ fuel ih =>
    intro l i t ht
    rw [earClipGo] at ht
    by_cases h : 3 < l.length
    · simp only [if_pos h, List.mem_cons] at ht
      obtain ⟨hi0, hi1, hj, h01, h0j, h1j⟩ := earIdx_spec l.length i h
      rcases ht with rfl | ht
      · refine ⟨rfl, ?_, ?_⟩
        · intro v hv
          simp only [List.mem_cons, List.not_mem_nil, or_false] at hv
          rcases hv with rfl | rfl | rfl
          · rw [List.getD_eq_getElem _ _ hi0]; exact List.getElem_mem hi0
          · rw [List.getD_eq_getElem _ _ hi1]; exact List.getElem_mem hi1
          · rw [List.getD_eq_getElem _ _ hj]; exact List.getElem_mem hj
        · intro hnd
          rw [List.getD_eq_getElem _ _ hi0, List.getD_eq_getElem _ _ hi1,
            List.getD_eq_getElem _ _ hj]
          simp only [List.nodup_cons, List.mem_cons, List.not_mem_nil, or_false,
            List.nodup_nil, and_true, not_or]
          refine ⟨⟨?_, ?_⟩, ?_, not_false⟩
          · rw [hnd.getElem_inj_iff]; exact h01
          · rw [hnd.getElem_inj_iff]; exact h0j
          · rw [hnd.getElem_inj_iff]; exact h1j
      · have hsub := List.eraseIdx_sublist l (wrapIdx l.length (wrapIdx l.length i + 1))
        obtain ⟨ht3, htm, htn⟩ := ih _ _ t ht
        exact ⟨ht3, fun v hv => hsub.subset (htm v hv), fun hnd => htn (hnd.sublist hsub)⟩
    · simp only [if_neg h, List.not_mem_nil] at ht

theorem triangulateFace_length (l : List Nat) (h3 : 3 ≤ l.length) :
    (triangulateFace l).length = l.length - 2 := by
  unfold triangulateFace earClipLoop
  simp only [List.length_append, List.length_cons, List.length_nil]
  rw [ec_fst_len l.length l 0 (by omega)]
  omega

theorem triangulateFace_faces (l : List Nat) (h3 : 3 ≤ l.length) :
    ∀ t ∈ triangulateFace l, t.length = 3 ∧ (∀ v ∈ t, v ∈ l) ∧ (l.Nodup → t.Nodup) := by
  intro t ht
  unfold triangulateFace earClipLoop at ht
  rw [List.mem_append] at ht
  rcases ht with ht | ht
  · exact ec_faces l.length l 0 t ht
  · rw [List.mem_singleton] at ht
    subst ht
    refine ⟨ec_snd_len l.length l 0 (by omega) h3, ?_, ?_⟩
    · exact fun v hv => (ec_snd_sublist l.length l 0).subset hv
    · exact fun hnd => hnd.sublist (ec_snd_sublist l.length l 0)

theorem buildIndices_ok (faces : List (List Nat)) (h : ∀ t ∈ faces, t.length = 3) :
    ∃ is, buildIndices faces = .ok is ∧ is.length = 6 * faces.length ∧
      ∀ x ∈ is, ∃ t ∈ faces, x ∈ t := by
  induction faces with
  | nil => exact ⟨[], rfl, by simp, by simp⟩
  | cons f fs ih =>
    have hf := h f (List.mem_cons_self f fs)
    obtain ⟨is, his, hlen, hmem⟩ := ih (fun t ht => h t (List.mem_cons_of_mem f ht))
    refine ⟨faceIndices f ++ is, ?_, ?_, ?_⟩
    · unfold buildIndices
      rw [if_neg (by omega), his]
    · simp only [List.length_append, faceIndices, List.length_cons, List.length_nil,
        List.length_cons, hlen]
      ring
    · intro x hx
      rw [List.mem_append] at hx
      rcases hx with hx | hx
      · refine ⟨f, List.mem_cons_self f fs, ?_⟩
        have h2 : (2 : Nat) < f.length := by omega
        have h0 : (0 : Nat) < f.length := by omega
        have h1 : (1 : Nat) < f.length := by omega
        simp only [faceIndices, List.mem_cons, List.not_mem_nil, or_false] at hx
        rcases hx with rfl | rfl | rfl | rfl | rfl | rfl
        all_goals first
          | (rw [List.getD_eq_getElem _ _ h2]; exact List.getElem_mem h2)
          | (rw [List.getD_eq_getElem _ _ h0]; exact List.getElem_mem h0)
          | (rw [List.getD_eq_getElem _ _ h1]; exact List.getElem_mem h1)
      · obtain ⟨t, ht, hxt⟩ := hmem x hx
        exact ⟨t, List.mem_cons_of_mem f ht, hxt⟩

/-- C1: for every face loop of length `L ≥ 3` with pairwise-distinct
vertex indices, the triangulation of `instance_to_mesh` emits exactly
`L − 2` triangles, every emitted triangle's three vertex indices are
pairwise distinct and drawn from the loop's vertex set, and under the
duplication convention the face contributes exactly `6 × (L − 2)`
entries to the index buffer. -/
theorem C1_triangulation (l : List Nat) (h3 : 3 ≤ l.length) (hnd : l.Nodup) :
    (triangulateFace l).length = l.length - 2 ∧
    (∀ t ∈ triangulateFace l, t.Nodup ∧ ∀ v ∈ t, v ∈ l) ∧
    ∃ is, buildIndices (triangulateFace l) = .ok is ∧ is.length = 6 * (l.length - 2) := by
  refine ⟨triangulateFace_length l h3, ?_, ?_⟩
  · intro t ht
    obtain ⟨_, hm, hn⟩ := triangulateFace_faces l h3 t ht
    exact ⟨hn hnd, hm⟩
  · obtain ⟨is, his, hlen, _⟩ := buildIndices_ok (triangulateFace l)
      (fun t ht => (triangulateFace_faces l h3 t ht).1)
    exact ⟨is, his, by rw [hlen, triangulateFace_length l h3]⟩

theorem C1_triangulation_witness :
    (triangulateFace [10, 20, 30, 40, 50]).length = ([10, 20, 30, 40, 50] : List Nat).length - 2 ∧
    (∀ t ∈ triangulateFace [10, 20, 30, 40, 50], t.Nodup ∧ ∀ v ∈ t, v ∈ ([10, 20, 30, 40, 50] : List Nat)) ∧
    ∃ is, buildIndices (triangulateFace [10, 20, 30, 40, 50]) = .ok is ∧
      is.length = 6 * (([10, 20, 30, 40, 50] : List Nat).length - 2) :=
  C1_triangulation [10, 20, 30, 40, 50] (by decide) (by decide)

/-! ## Lemmas: mesh attribute invariants (claim C2) -/

theorem extractLoopGo_mem (mloop : List Int) :
    ∀ (k : Nat) (start : Int) (fl : List Nat), extractLoopGo mloop start k = .ok fl →
      ∀ v ∈ fl, ∃ w ∈ mloop, v = (w.emod u32Mod).toNat := by
  intro k
  induction k with
  | zero =>
    intro start fl h v hv
    rw [extractLoopGo] at h
    cases h
    simp at hv
  | succ k ih =>
    intro start fl h v hv
    rw [extractLoopGo] at h
    split at h
    · rename_i hb
      split at h
      · rename_i rest hrest
        cases h
        rcases List.mem_cons.mp hv with rfl | hv'
        · exact ⟨mloop.get ⟨start.toNat, hb.2⟩, List.get_mem mloop start.toNat hb.2, rfl⟩
        · exact ih (start + 1) rest hrest v hv'
      · cases h
    · cases h

theorem extractLoop_mem (mloop : List Int) (ls tl : Int) (fl : List Nat)
    (h : extractLoop mloop ls tl = .ok fl) :
    ∀ v ∈ fl, ∃ w ∈ mloop, v = (w.emod u32Mod).toNat :=
  extractLoopGo_mem mloop tl.toNat ls fl h

theorem extractFaceloops_sound (mloop : List Int) :
    ∀ (mpoly : List MPoly) (fls : List (List Nat)),
      extractFaceloops mpoly mloop = .ok fls →
      ∀ fl ∈ fls, ∃ p ∈ mpoly, extractLoop mloop p.loopstart p.totloop = .ok fl := by
  intro mpoly
  induction mpoly with
  | nil =>
    intro fls h fl hfl
    rw [extractFaceloops] at h
    cases h
    simp at hfl
  | cons p ps ih =>
    intro fls h fl hfl
    rw [extractFaceloops] at h
    split at h
    · cases h
    · rename_i fl0 hfl0
      split at h
      · rename_i rest hrest
        cases h
        rcases List.mem_cons.mp hfl with rfl | hfl'
        · exact ⟨p, List.mem_cons_self p ps, hfl0⟩
        · obtain ⟨q, hq, hqe⟩ := ih rest hrest fl hfl'
          exact ⟨q, List.mem_cons_of_mem p hq, hqe⟩
      · cases h

theorem applyUVs_length :
    ∀ (uvr : List (ℚ × ℚ)) (vs : List Int) (uvs out : List (ℚ × ℚ)),
      applyUVs vs uvr uvs = .ok out → out.length = uvs.length := by
  intro uvr
  induction uvr with
  | nil =>
    intro vs uvs out h
    cases vs <;> (rw [applyUVs] at h; cases h; rfl)
  | cons uv uvrest ih =>
    intro vs uvs out h
    cases vs with
    | nil => rw [applyUVs] at h; cases h
    | cons v vrest =>
      rw [applyUVs] at h
      split at h
      · have := ih vrest (uvs.set v.toNat uv) out h
        rw [this, List.length_set]
      · cases h

theorem accAt_length (ns : List F3) (v : Nat) (n : F3) :
    (accAt ns v n).length = max ns.length (v + 1) := by
  unfold accAt growTo
  simp only [List.length_set, List.length_append, List.length_replicate]
  omega

theorem accumFace_length_le (N : Nat) :
    ∀ (fl : List Nat) (ns : List F3) (n : F3), ns.length ≤ N →
      (∀ v ∈ fl, v + 1 ≤ N) → (accumFace ns fl n).length ≤ N := by
  intro fl
  induction fl with
  | nil => intro ns n h _; exact h
  | cons v vs ih =>
    intro ns n h hv
    unfold accumFace at ih ⊢
    simp only [List.foldl_cons]
    apply ih
    · rw [accAt_length]
      have := hv v (List.mem_cons_self v vs)
      omega
    · exact fun w hw => hv w (List.mem_cons_of_mem v hw)

theorem cvn_fold_le (mloop : List Int) (positions : List QV3)
    (hv : ∀ w ∈ mloop, (w.emod u32Mod).toNat < positions.length) :
    ∀ (ps : List MPoly) (ns0 ns : List F3), ns0.length ≤ positions.length →
      ps.foldlM (cvnStep mloop positions) ns0 = .ok ns →
      ns.length ≤ positions.length := by
  intro ps
  induction ps with
  | nil =>
    intro ns0 ns h0 h
    rw [List.foldlM_nil] at h
    cases h
    exact h0
  | cons p ps ih =>
    intro ns0 ns h0 h
    rw [List.foldlM_cons] at h
    cases hstep : cvnStep mloop positions ns0 p with
    | error e => rw [hstep] at h; cases h
    | ok ns1 =>
      rw [hstep] at h
      refine ih ns1 ns ?_ h
      unfold cvnStep at hstep
      split at hstep
      · cases hstep
      · rename_i fl hfl
        split at hstep
        · cases hstep
        · rename_i n hn
          cases hstep
          refine accumFace_length_le positions.length fl ns0 n h0 ?_
          intro v hvfl
          obtain ⟨w, hw, rfl⟩ := extractLoop_mem mloop _ _ fl hfl v hvfl
          have := hv w hw
          omega

theorem calculate_vertex_normals_length_le (mpoly : List MPoly) (mloop : List Int)
    (positions : List QV3) (normals : List F3)
    (hv : ∀ w ∈ mloop, (w.emod u32Mod).toNat < positions.length)
    (h : calculate_vertex_normals mpoly mloop positions = .ok normals) :
    normals.length ≤ positions.length := by
  unfold calculate_vertex_normals at h
  split at h
  · cases h
  · rename_i ns hns
    cases h
    rw [List.length_map]
    exact cvn_fold_le mloop positions hv mpoly [] ns (by simp) hns

theorem buildIndices_sound :
    ∀ (faces : List (List Nat)) (is : List Nat), buildIndices faces = .ok is →
      (∀ t ∈ faces, 3 ≤ t.length) ∧ (∀ x ∈ is, ∃ t ∈ faces, x ∈ t) := by
  intro faces
  induction faces with
  | nil =>
    intro is h
    rw [buildIndices] at h
    cases h
    exact ⟨by simp, by simp⟩
  | cons f fs ih =>
    intro is h
    rw [buildIndices] at h
    split at h
    · cases h
    · rename_i hlen
      split at h
      · rename_i rest hrest
        cases h
        obtain ⟨ihl, ihm⟩ := ih rest hrest
        constructor
        · intro t ht
          rcases List.mem_cons.mp ht with rfl | ht'
          · omega
          · exact ihl t ht'
        · intro x hx
          rcases List.mem_append.mp hx with hx | hx
          · refine ⟨f, List.mem_cons_self f fs, ?_⟩
            have h2 : (2 : Nat) < f.length := by omega
            have h0 : (0 : Nat) < f.length := by omega
            have h1 : (1 : Nat) < f.length := by omega
            simp only [faceIndices, List.mem_cons, List.not_mem_nil, or_false] at hx
            rcases hx with rfl | rfl | rfl | rfl | rfl | rfl
            all_goals first
              | (rw [List.getD_eq_getElem _ _ h2]; exact List.getElem_mem h2)
              | (rw [List.getD_eq_getElem _ _ h0]; exact List.getElem_mem h0)
              | (rw [List.getD_eq_getElem _ _ h1]; exact List.getElem_mem h1)
          · obtain ⟨t, ht, hxt⟩ := ihm x hx
            exact ⟨t, List.mem_cons_of_mem f ht, hxt⟩
      · cases h

theorem triangulateFace_mem_source (fl : List Nat) (t : List Nat)
    (ht : t ∈ triangulateFace fl) : ∀ v ∈ t, v ∈ fl := by
  by_cases hfl : 3 ≤ fl.length
  · exact (triangulateFace_faces fl hfl t ht).2.1
  · unfold triangulateFace earClipLoop at ht
    have h : ¬ 3 < fl.length := by omega
    rw [earClipGo_small _ _ _ h] at ht
    simp only [List.nil_append, List.mem_singleton] at ht
    subst ht
    exact fun v hv => hv

theorem instance_to_mesh_ok (rec : MeshRecord) (ver : Nat × Nat × Nat) (m : EMesh)
    (h : instance_to_mesh rec ver = .ok m) :
    rec.type_name = "Mesh" ∧
    ∃ faceloops,
      extractFaceloops rec.mpoly rec.mloop = .ok faceloops ∧
      buildIndices (faceloops.map triangulateFace).flatten = .ok m.indices ∧
      m.positions = rec.mvert.map vertPosition ∧
      (if ver.1 ≤ 2 then Except.ok (rec.mvert.map packedNormal)
        else calculate_vertex_normals rec.mpoly rec.mloop (rec.mvert.map vertPosition))
        = .ok m.normals ∧
      applyUVs rec.mloop rec.mloopuv
        (List.replicate rec.mvert.length ((0 : ℚ), (0 : ℚ))) = .ok m.uvs := by
  unfold instance_to_mesh at h
  split at h
  · rename_i htype
    cases hfl : extractFaceloops rec.mpoly rec.mloop with
    | error e => simp only [hfl] at h; cases h
    | ok faceloops =>
      simp only [hfl] at h
      cases hidx : buildIndices (faceloops.map triangulateFace).flatten with
      | error e => simp only [hidx] at h; cases h
      | ok indices =>
        simp only [hidx] at h
        cases hnorm : (if ver.1 ≤ 2 then Except.ok (rec.mvert.map packedNormal)
            else calculate_vertex_normals rec.mpoly rec.mloop
              (rec.mvert.map vertPosition)) with
        | error e => simp only [hnorm] at h; cases h
        | ok normals =>
          simp only [hnorm] at h
          cases huv : applyUVs rec.mloop rec.mloopuv
              (List.replicate rec.mvert.length ((0 : ℚ), (0 : ℚ))) with
          | error e => simp only [huv] at h; cases h
          | ok uvs =>
            simp only [huv, Except.ok.injEq] at h
            subst h
            exact ⟨htype, faceloops, rfl, hidx, rfl, rfl, rfl⟩
  · cases h

/-- C2 (amended): for every mesh record successfully converted by
`instance_to_mesh` (under any version tuple),
`uvs.len() == positions.len()` holds unconditionally, and in the
packed-normal mode (major version ≤ 2)
`normals.len() == positions.len()` holds unconditionally; provided
every loop vertex index (read `as u32`) is below the vertex count,
additionally every index-buffer entry is `< positions.len()` and in the
computed mode (major ≥ 3) the normal count is bounded by
`positions.len()` — it equals one plus the largest face-referenced
vertex index, so unreferenced trailing vertices make it smaller. -/
theorem C2_mesh_invariants (rec : MeshRecord) (ver : Nat × Nat × Nat) (m : EMesh)
    (hok : instance_to_mesh rec ver = .ok m) :
    m.uvs.length = m.positions.length ∧
    (ver.1 ≤ 2 → m.normals.length = m.positions.length) ∧
    ((∀ w ∈ rec.mloop, (w.emod u32Mod).toNat < rec.mvert.length) →
      (∀ ix ∈ m.indices, ix < m.positions.length) ∧
      (3 ≤ ver.1 → m.normals.length ≤ m.positions.length)) := by
  obtain ⟨htype, faceloops, hfl, hidx, hpos, hnorm, huv⟩ :=
    instance_to_mesh_ok rec ver m hok
  have hplen : m.positions.length = rec.mvert.length := by
    rw [hpos, List.length_map]
  refine ⟨?_, ?_, ?_⟩
  · rw [applyUVs_length rec.mloopuv rec.mloop _ m.uvs huv, List.length_replicate, hplen]
  · intro hver
    rw [if_pos hver] at hnorm
    have hn := Except.ok.inj hnorm
    rw [← hn, List.length_map, hplen]
  · intro hv
    constructor
    · intro ix hix
      obtain ⟨hfaces3, hmem⟩ := buildIndices_sound _ m.indices hidx
      obtain ⟨t, ht, hixt⟩ := hmem ix hix
      obtain ⟨tf, htf, httf⟩ := List.mem_flatten.mp ht
      obtain ⟨fl, hflmem, rfl⟩ := List.mem_map.mp htf
      have hixfl : ix ∈ fl := triangulateFace_mem_source fl t httf ix hixt
      obtain ⟨p, hp, hpe⟩ := extractFaceloops_sound rec.mloop rec.mpoly faceloops hfl fl hflmem
      obtain ⟨w, hw, rfl⟩ := extractLoop_mem rec.mloop _ _ fl hpe ix hixfl
      rw [hplen]
      exact hv w hw
    · intro hver
      rw [if_neg (by omega)] at hnorm
      have hle := calculate_vertex_normals_length_le rec.mpoly rec.mloop
        (rec.mvert.map vertPosition) m.normals ?_ hnorm
      · rw [hpos]
        exact hle
      · intro w hw
        rw [List.length_map]
        exact hv w hw

attribute [local semireducible] Rat.add Rat.mul Rat.inv Rat.sub Rat.ofScientific

/-- C2 witness: the invariants evaluated on a concrete well-formed
single-triangle mesh, with the loop-index proviso discharged. -/
theorem C2_mesh_invariants_witness :
    witMeshOut.uvs.length = witMeshOut.positions.length ∧
    ((3, 0, 0).1 ≤ 2 → witMeshOut.normals.length = witMeshOut.positions.length) ∧
    (∀ ix ∈ witMeshOut.indices, ix < witMeshOut.positions.length) ∧
    (3 ≤ (3, 0, 0).1 → witMeshOut.normals.length ≤ witMeshOut.positions.length) :=
  ⟨(C2_mesh_invariants witMesh (3, 0, 0) witMeshOut (by decide)).1,
   (C2_mesh_invariants witMesh (3, 0, 0) witMeshOut (by decide)).2.1,
   (C2_mesh_invariants witMesh (3, 0, 0) witMeshOut (by decide)).2.2 (by decide)⟩

/-- C2 counterexample: `cexMesh` (four vertices, quad loop `[0, 1, 5, 2]`)
converts successfully under version `(3, 0, 0)` yet its index buffer
contains the entry 5 ≥ 4 = `positions.len()` and its normal list has 6
entries; `cexMesh2` (four vertices, triangle `[0, 1, 2]`, all loop
indices in range) converts successfully with only 3 normals for 4
positions.  Both violate the claimed invariant. -/
theorem C2_counterexample :
    (instance_to_mesh cexMesh (3, 0, 0)).map
        (fun m => (m.positions.length, m.normals.length, m.indices)) =
      .ok (4, 6, [5, 0, 1, 5, 0, 1, 2, 0, 5, 2, 0, 5]) ∧
    (5 : Nat) ∈ [5, 0, 1, 5, 0, 1, 2, 0, 5, 2, 0, 5] ∧ ¬ (5 : Nat) < 4 ∧ (6 : Nat) ≠ 4 ∧
    (instance_to_mesh cexMesh2 (3, 0, 0)).map
        (fun m => (m.positions.length, m.normals.length)) = .ok (4, 3) ∧
    (∀ w ∈ cexMesh2.mloop, (w.emod u32Mod).toNat < cexMesh2.mvert.length) ∧ (3 : Nat) ≠ 4 :=
  ⟨by decide, by decide, by decide, by decide, by decide, by decide, by decide⟩

/-! ## Lemmas: file-level loading (claims C3, C7, C10) -/

theorem loadMeshes_abort (version : Nat × Nat × Nat) :
    ∀ (pre : List (String × MeshRecord)) (acc : List (String × Asset))
      (label : String) (rec : MeshRecord) (rest : List (String × MeshRecord)) (e : RErr),
      (∀ p ∈ pre, ¬ strStartsWith p.1 "ME_" → ∃ mm, instance_to_mesh p.2 version = .ok mm) →
      ¬ strStartsWith label "ME_" →
      instance_to_mesh rec version = .error e →
      loadMeshes version (pre ++ (label, rec) :: rest) acc = .error (.meshFailed e) := by
  intro pre
  induction pre with
  | nil =>
    intro acc label rec rest e hpre hlab hfail
    rw [List.nil_append, loadMeshes, if_neg hlab, hfail]
  | cons p ps ih =>
    intro acc label rec rest e hpre hlab hfail
    obtain ⟨pl, pr⟩ := p
    rw [List.cons_append, loadMeshes]
    split
    · exact ih acc label rec rest e
        (fun q hq hq2 => hpre q (List.mem_cons_of_mem _ hq) hq2) hlab hfail
    · rename_i hskip
      obtain ⟨mm, hmm⟩ := hpre (pl, pr) (List.mem_cons_self _ _) hskip
      rw [hmm]
      exact ih _ label rec rest e
        (fun q hq hq2 => hpre q (List.mem_cons_of_mem _ hq) hq2) hlab hfail

theorem instance_to_material_nodes (rec : MatRecord) (ver : Nat × Nat × Nat)
    (h : rec.use_nodes ≠ 0) : ∀ m, instance_to_material rec ver ≠ .ok m := by
  intro m hc
  unfold instance_to_material at hc
  rw [if_neg h] at hc
  split at hc <;> cases hc

theorem loadMaterials_acc_mono (version : Nat × Nat × Nat) :
    ∀ (mats : List (String × MatRecord)) (acc : List (String × Asset))
      (x : String × Asset), x ∈ acc → x ∈ loadMaterials version mats acc := by
  intro mats
  induction mats with
  | nil =>
    intro acc x hx
    rw [loadMaterials]
    exact hx
  | cons p ps ih =>
    intro acc x hx
    obtain ⟨pl, pr⟩ := p
    rw [loadMaterials]
    split
    · exact ih acc x hx
    · cases hmat : instance_to_material pr version with
      | ok m => exact ih _ x (List.mem_append_left _ hx)
      | error e => exact ih _ x (List.mem_append_left _ hx)

theorem loadMaterials_unsupported_mem (version : Nat × Nat × Nat) :
    ∀ (mats : List (String × MatRecord)) (acc : List (String × Asset))
      (label : String) (rec : MatRecord),
      (label, rec) ∈ mats → ¬ strStartsWith label "MA_" → rec.use_nodes ≠ 0 →
      (label, Asset.material unsupported_material) ∈ loadMaterials version mats acc := by
  intro mats
  induction mats with
  | nil =>
    intro acc label rec h
    cases h
  | cons p ps ih =>
    intro acc label rec hmem hlab hnodes
    obtain ⟨pl, pr⟩ := p
    rw [loadMaterials]
    rcases List.mem_cons.mp hmem with heq | hmem'
    · injection heq with h1 h2
      subst h1
      subst h2
      rw [if_neg hlab]
      cases hmat : instance_to_material rec version with
      | ok m => exact absurd hmat (instance_to_material_nodes rec version hnodes m)
      | error e =>
        exact loadMaterials_acc_mono version ps _ _
          (List.mem_append_right _ (List.mem_singleton.mpr rfl))
    · split
      · exact ih acc label rec hmem' hlab hnodes
      · cases hmat : instance_to_material pr version with
        | ok m => exact ih _ label rec hmem' hlab hnodes
        | error e => exact ih _ label rec hmem' hlab hnodes

theorem loadMaterials_total (version : Nat × Nat × Nat) :
    ∀ (mats : List (String × MatRecord)) (acc : List (String × Asset))
      (label : String) (rec : MatRecord),
      (label, rec) ∈ mats → ¬ strStartsWith label "MA_" →
      ∃ a, (label, a) ∈ loadMaterials version mats acc := by
  intro mats
  induction mats with
  | nil =>
    intro acc label rec h
    cases h
  | cons p ps ih =>
    intro acc label rec hmem hlab
    obtain ⟨pl, pr⟩ := p
    rw [loadMaterials]
    rcases List.mem_cons.mp hmem with heq | hmem'
    · injection heq with h1 h2
      subst h1
      subst h2
      rw [if_neg hlab]
      cases hmat : instance_to_material rec version with
      | ok m =>
        exact ⟨Asset.material m, loadMaterials_acc_mono version ps _ _
          (List.mem_append_right _ (List.mem_singleton.mpr rfl))⟩
      | error e =>
        exact ⟨Asset.material unsupported_material, loadMaterials_acc_mono version ps _ _
          (List.mem_append_right _ (List.mem_singleton.mpr rfl))⟩
    · split
      · exact ih acc label rec hmem' hlab
      · cases hmat : instance_to_material pr version with
        | ok m => exact ih _ label rec hmem' hlab
        | error e => exact ih _ label rec hmem' hlab

theorem load_blend_assets_ok (bytes : List Nat) (path : String) (file : BlendFileData)
    (out : List (String × Asset)) (h : load_blend_assets bytes path file = .ok out) :
    ∃ meshAssets, loadMeshes file.version file.meshes [] = .ok meshAssets ∧
      out = loadMaterials file.version file.materials
        (meshAssets ++ [("bevy_blender_missing_material", Asset.material missing_material)]) := by
  unfold load_blend_assets at h
  split at h
  · cases h
  · split at h
    · cases h
    · cases hm : loadMeshes file.version file.meshes [] with
      | error e => rw [hm] at h; cases h
      | ok meshAssets =>
        rw [hm] at h
        exact ⟨meshAssets, rfl, (Except.ok.inj h).symm⟩

/-- C3 counterexample: in `c3File` the first mesh record fails with
`InvalidInstanceType` and `load_blend_assets` aborts the whole file load
with that error — the well-formed sibling record `MEGood` (whose own
conversion succeeds, second conjunct) is never processed or published. -/
theorem C3_counterexample :
    load_blend_assets magicBytes "demo.blend" c3File =
      .error (.meshFailed (.invalidInstanceType "Mesh" "Object")) ∧
    instance_to_mesh goodRec c3File.version =
      .ok { indices := [], positions := [], normals := [], uvs := [] } := by
  exact ⟨by decide, by decide⟩

/-- C3 (amended): a mesh-record conversion failure is not confined to
that record — it aborts the entire file load.  If the records before the
failing one all convert (or are underscore-filtered), the loader returns
the failing record's error and publishes nothing; material-record
failures, by contrast, are isolated (see the C7 theorem). -/
theorem C3_mesh_failure_aborts (bytes : List Nat) (path : String)
    (file : BlendFileData) (pre : List (String × MeshRecord)) (label : String)
    (rec : MeshRecord) (rest : List (String × MeshRecord)) (e : RErr)
    (hb : ¬ bytes.length < 7) (hm : bytes.take 7 = magicBytes)
    (hsplit : file.meshes = pre ++ (label, rec) :: rest)
    (hpre : ∀ p ∈ pre, ¬ strStartsWith p.1 "ME_" →
      ∃ mm, instance_to_mesh p.2 file.version = .ok mm)
    (hlab : ¬ strStartsWith label "ME_")
    (hfail : instance_to_mesh rec file.version = .error e) :
    load_blend_assets bytes path file = .error (.meshFailed e) := by
  unfold load_blend_assets
  rw [if_neg hb, if_neg (by simp [hm]), hsplit,
    loadMeshes_abort file.version pre [] label rec rest e hpre hlab hfail]

/-- C3 witness: the amended claim applied to the concrete two-mesh file
`c3File`. -/
theorem C3_mesh_failure_aborts_witness :
    load_blend_assets magicBytes "demo.blend" c3File =
      .error (.meshFailed (.invalidInstanceType "Mesh" "Object")) :=
  C3_mesh_failure_aborts magicBytes "demo.blend" c3File [] "MEBad" badRec
    [("MEGood", goodRec)] (.invalidInstanceType "Mesh" "Object")
    (by decide) (by decide) rfl (by simp) (by decide) (by decide)

/-- C7 counterexample: loading `c7File` (one node-based material labeled
`MAFoo`) publishes under `MAFoo` the substitute `unsupported_material`,
whose perceptual roughness is 0.5 and reflectance 0.1 — not the
zero-roughness, zero-reflectance fallback of §6 (which is published
separately, only under the label `bevy_blender_missing_material`). -/
theorem C7_counterexample :
    load_blend_assets magicBytes "demo.blend" c7File =
      .ok [("bevy_blender_missing_material", Asset.material missing_material),
           ("MAFoo", Asset.material unsupported_material)] ∧
    unsupported_material.perceptual_roughness = 1/2 ∧
    unsupported_material.reflectance = 1/10 ∧
    ¬ (unsupported_material.perceptual_roughness = 0 ∧
       unsupported_material.reflectance = 0) := by
  exact ⟨by decide, by decide, by decide, by decide⟩

/-- C7 (amended): a material record whose node-graph flag is set never
converts successfully, and whenever the file loads, every non-underscore
node-based material is published as the fixed substitute
`unsupported_material` (color `(0.9, 0.4, 0.3)`, roughness `0.5`,
reflectance `0.1` — not the zero-roughness `bevy_blender_missing_material`
fallback), and every non-underscore sibling material record is still
published. -/
theorem C7_unsupported_material (ver : Nat × Nat × Nat) (rec : MatRecord)
    (hnodes : rec.use_nodes ≠ 0) :
    (∀ m, instance_to_material rec ver ≠ .ok m) ∧
    (∀ (bytes : List Nat) (path : String) (file : BlendFileData)
       (out : List (String × Asset)) (label : String),
      load_blend_assets bytes path file = .ok out →
      file.version = ver →
      (label, rec) ∈ file.materials → ¬ strStartsWith label "MA_" →
      (label, Asset.material unsupported_material) ∈ out) ∧
    (∀ (bytes : List Nat) (path : String) (file : BlendFileData)
       (out : List (String × Asset)) (label2 : String) (rec2 : MatRecord),
      load_blend_assets bytes path file = .ok out →
      (label2, rec2) ∈ file.materials → ¬ strStartsWith label2 "MA_" →
      ∃ a, (label2, a) ∈ out) := by
  refine ⟨instance_to_material_nodes rec ver hnodes, ?_, ?_⟩
  · intro bytes path file out label hok hver hmem hlab
    obtain ⟨meshAssets, hm, rfl⟩ := load_blend_assets_ok bytes path file out hok
    subst hver
    exact loadMaterials_unsupported_mem file.version file.materials _ label rec
      hmem hlab hnodes
  · intro bytes path file out label2 rec2 hok hmem hlab
    obtain ⟨meshAssets, hm, rfl⟩ := load_blend_assets_ok bytes path file out hok
    exact loadMaterials_total file.version file.materials _ label2 rec2 hmem hlab

/-- C7 witness: `nodeMat` in `c7File` — the conversion error and the
published substitute, evaluated concretely. -/
theorem C7_unsupported_material_witness :
    (∀ m, instance_to_material nodeMat (2, 93, 0) ≠ .ok m) ∧
    ("MAFoo", Asset.material unsupported_material) ∈
      [("bevy_blender_missing_material", Asset.material missing_material),
       ("MAFoo", Asset.material unsupported_material)] :=
  ⟨(C7_unsupported_material (2, 93, 0) nodeMat (by decide)).1,
   (C7_unsupported_material (2, 93, 0) nodeMat (by decide)).2.1 magicBytes "demo.blend"
     c7File _ "MAFoo" (by decide) rfl (by decide) (by decide)⟩

/-! ## Theorems: normals, coordinate conversion, hierarchy (C4, C5, C6, C8) -/

/-- C4: on `c4Mesh` (one triangle `[0, 2, 3]`, vertex 1 touched by no
face) the accumulated normal of vertex 1 is exactly the zero vector, yet
`calculate_vertex_normals` normalizes it unconditionally
(mesh.rs line 181 has no zero guard), so the published normal of
vertex 1 is NaN in every component — the code divides by zero instead of
keeping the zero vector. -/
theorem C4_zero_normal_nan :
    c4Mesh.mpoly.foldlM (cvnStep c4Mesh.mloop (c4Mesh.mvert.map vertPosition)) [] =
      .ok [F3.val (0, 1, 0), F3.val (0, 0, 0), F3.val (0, 1, 0), F3.val (0, 1, 0)] ∧
    fnormalize (F3.val (0, 0, 0)) = F3.nan ∧
    (instance_to_mesh c4Mesh (3, 0, 0)).map (fun m => m.normals) =
      .ok [F3.val (0, 1, 0), F3.nan, F3.val (0, 1, 0), F3.val (0, 1, 0)] := by
  exact ⟨by decide, by decide, by decide⟩

/-- C5: the coordinate conversion maps a transform with translation
`(x, y, z)` to one with translation `(x, z, -y)` — in particular
`(1, 2, 3)` to `(1, 3, -2)` — and scale `(sx, sy, sz)` to
`(sx, sz, sy)`; as a Lean function it is total, with no failure mode. -/
theorem C5_coordinate_conversion (s e t : QV3) :
    (right_hand_zup_to_right_hand_yup ⟨s, e, t⟩).translation = (t.1, t.2.2, -t.2.1) ∧
    (right_hand_zup_to_right_hand_yup ⟨s, e, t⟩).scale = (s.1, s.2.2, s.2.1) ∧
    (right_hand_zup_to_right_hand_yup
      ⟨(1, 1, 1), (0, 0, 0), (1, 2, 3)⟩).translation = (1, 3, -2) := by
  exact ⟨rfl, rfl, by decide⟩

/-- C6: the local matrix `spawn_children_objects` computes is
`L = P⁻¹ × C`, so for every invertible parent world matrix `P` it
satisfies `P × L = C` exactly under exact (rational) arithmetic. -/
theorem C6_local_matrix (P C : Mat4Q) (hP : IsUnit P.det) :
    P * localMatrix P C = C := by
  unfold localMatrix mat4inv
  have hinv : P.det⁻¹ • P.adjugate = P⁻¹ := by
    rw [Matrix.inv_def, Ring.inverse_eq_inv]
  rw [hinv, ← Matrix.mul_assoc, Matrix.mul_nonsing_inv P hP, Matrix.one_mul]

/-- C6 witness: the identity parent matrix. -/
theorem C6_local_matrix_witness :
    IsUnit (1 : Mat4Q).det ∧ (1 : Mat4Q) * localMatrix 1 1 = 1 :=
  ⟨by simp, C6_local_matrix 1 1 (by simp)⟩

/-- C8: a spawn or bundle request whose root object is absent yields the
`MissingAsset` error as a result value before anything is spawned:
`spawn_blender_object_with_error` and `BlenderObjectBundle::new_from_blend`
return it, and the public `spawn_blender_object` wrapper returns no
hierarchy (it consumes the same error value, reporting it to the log) —
in no case does the process abort, and no partial hierarchy exists. -/
theorem C8_missing_root (objs : List ObjRecord) (file name : String)
    (sc : Bool) (pt : Option ETransform) (fuel : Nat)
    (habs : get_object_by_name objs ("OB" ++ name) = none) :
    spawn_blender_object_with_error objs file name sc pt fuel =
      .error (.missingAsset name file) ∧
    new_from_blend objs file name = .error (.missingAsset name file) ∧
    spawn_blender_object objs file name sc pt fuel =
      (none, [SpawnErr.missingAsset name file]) := by
  refine ⟨?_, ?_, ?_⟩
  · unfold spawn_blender_object_with_error
    rw [habs]
  · unfold new_from_blend
    rw [habs]
  · unfold spawn_blender_object spawn_blender_object_with_error
    rw [habs]

/-- C8 witness: requesting the absent object `Missing` from an empty
object set. -/
theorem C8_missing_root_witness :
    spawn_blender_object_with_error [] "demo.blend" "Missing" true none 5 =
      .error (.missingAsset "Missing" "demo.blend") ∧
    new_from_blend [] "demo.blend" "Missing" =
      .error (.missingAsset "Missing" "demo.blend") ∧
    spawn_blender_object [] "demo.blend" "Missing" true none 5 =
      (none, [SpawnErr.missingAsset "Missing" "demo.blend"]) :=
  C8_missing_root [] "demo.blend" "Missing" true none 5 rfl

/-! ## Lemmas and theorems: child resolution and the magic check (C9, C10) -/

theorem except_bind_ok {ε α β : Type} (a : α) (f : α → Except ε β) :
    (Except.ok a : Except ε α) >>= f = f a := rfl

theorem except_bind_error {ε α β : Type} (e : ε) (f : α → Except ε β) :
    (Except.error e : Except ε α) >>= f = .error e := rfl

theorem mapM_error_mem {α β ε : Type} (f : α → Except ε β) :
    ∀ (l : List α) (e : ε), l.mapM f = .error e → ∃ x ∈ l, f x = .error e := by
  intro l
  induction l with
  | nil =>
    intro e h
    rw [List.mapM_nil] at h
    cases h
  | cons a as ih =>
    intro e h
    rw [List.mapM_cons] at h
    cases hf : f a with
    | error e2 =>
      rw [hf, except_bind_error] at h
      injection h with he
      exact ⟨a, List.mem_cons_self a as, by rw [hf, he]⟩
    | ok b =>
      rw [hf, except_bind_ok] at h
      cases hm : as.mapM f with
      | error e2 =>
        rw [hm, except_bind_error] at h
        injection h with he
        obtain ⟨x, hx, hfx⟩ := ih e2 hm
        exact ⟨x, List.mem_cons_of_mem a hx, by rw [hfx, he]⟩
      | ok bs =>
        rw [hm, except_bind_ok] at h
        cases h

theorem spawn_children_step (objs : List ObjRecord) (file : String) (fuel : Nat)
    (obj : ObjRecord) (pm : Mat4Q) (mats : List MatSlot) (hm : obj.mats = some mats)
    (e : SpawnErr)
    (hmap : (get_children objs obj.name).mapM
      (fun c => spawn_children_objects objs file fuel c obj.obmat) = .error e) :
    spawn_children_objects objs file (fuel + 1) obj pm = .error e := by
  rw [spawn_children_objects]
  simp only [hm]
  rw [hmap]

theorem cyc_diverges (fuel : Nat) : ∀ pm : Mat4Q,
    spawn_children_objects cycObjs "demo.blend" fuel cycA pm = .error .outOfFuel ∧
    spawn_children_objects cycObjs "demo.blend" fuel cycB pm = .error .outOfFuel := by
  induction fuel with
  | zero => intro pm; exact ⟨rfl, rfl⟩
  | succ fuel ih =>
    intro pm
    constructor
    · refine spawn_children_step cycObjs "demo.blend" fuel cycA pm [] rfl .outOfFuel ?_
      have hgc : get_children cycObjs cycA.name = [cycB] := rfl
      rw [hgc, List.mapM_cons, (ih cycA.obmat).2, except_bind_error]
    · refine spawn_children_step cycObjs "demo.blend" fuel cycB pm [] rfl .outOfFuel ?_
      have hgc : get_children cycObjs cycB.name = [cycA] := rfl
      rw [hgc, List.mapM_cons, (ih cycB.obmat).1, except_bind_error]

/-- C9 counterexample: on the object set `cycObjs`, whose two objects
form a parent-reference cycle (`OBA` ↔ `OBB`), child resolution never
completes: `spawn_children_objects` (which has no visited-set or
cycle protection) exhausts every fuel bound, i.e. the source recursion
revisits the objects on the current path forever. -/
theorem C9_counterexample :
    ¬ ∃ (fuel : Nat) (t : SpawnTree),
      spawn_children_objects cycObjs "demo.blend" fuel cycA 1 = .ok t := by
  rintro ⟨fuel, t, ht⟩
  rw [(cyc_diverges fuel 1).1] at ht
  cases ht

/-- C9 (amended): child resolution terminates on every acyclic object
set — witnessed by any depth measure that strictly decreases from parent
name to child — with fuel exceeding the root's measure, the resolver
never runs out of fuel; but the resolver has no cycle protection, so a
parent-reference cycle makes the recursion diverge (see the
counterexample). -/
theorem C9_acyclic_terminates (objs : List ObjRecord) (file : String)
    (meas : String → Nat)
    (hmeas : ∀ o ∈ objs, ∀ pn, o.parent = some pn → meas o.name < meas pn) :
    ∀ (fuel : Nat) (obj : ObjRecord) (pm : Mat4Q), meas obj.name < fuel →
      spawn_children_objects objs file fuel obj pm ≠ .error .outOfFuel := by
  intro fuel
  induction fuel with
  | zero =>
    intro obj pm h
    omega
  | succ fuel ih =>
    intro obj pm h hcontra
    rw [spawn_children_objects] at hcontra
    cases hmats : obj.mats with
    | none =>
      simp only [hmats] at hcontra
      cases hcontra
    | some mats =>
      simp only [hmats] at hcontra
      cases hmap : (get_children objs obj.name).mapM
          (fun c => spawn_children_objects objs file fuel c obj.obmat) with
      | ok kids =>
        rw [hmap] at hcontra
        cases hcontra
      | error e =>
        rw [hmap] at hcontra
        injection hcontra with he
        subst he
        obtain ⟨c, hc, hres⟩ := mapM_error_mem _ _ _ hmap
        have hcobj : c ∈ objs := List.mem_of_mem_filter hc
        have hparent : c.parent = some obj.name := by
          have := List.of_mem_filter hc
          simpa using this
        have hlt := hmeas c hcobj obj.name hparent
        exact ih c obj.obmat (by omega) hres

/-- C9 witness: the amended claim on the concrete acyclic set `wObjs`
(one child under `OBRoot`), with the evident depth measure. -/
theorem C9_acyclic_terminates_witness :
    (∀ o ∈ wObjs, ∀ pn, o.parent = some pn →
      (fun n => if n = "OBRoot" then 1 else 0) o.name <
        (fun n => if n = "OBRoot" then 1 else 0) pn) ∧
    spawn_children_objects wObjs "demo.blend" 2 wObjRoot 1 ≠ .error .outOfFuel :=
  ⟨by decide,
   C9_acyclic_terminates wObjs "demo.blend" (fun n => if n = "OBRoot" then 1 else 0)
     (by decide) 2 wObjRoot 1 (by decide)⟩

theorem loadMeshes_error_shape (version : Nat × Nat × Nat) :
    ∀ (meshes : List (String × MeshRecord)) (acc : List (String × Asset)) (e : LoadErr),
      loadMeshes version meshes acc = .error e → ∃ e2, e = .meshFailed e2 := by
  intro meshes
  induction meshes with
  | nil =>
    intro acc e h
    cases h
  | cons p ps ih =>
    intro acc e h
    obtain ⟨pl, pr⟩ := p
    rw [loadMeshes] at h
    split at h
    · exact ih acc e h
    · cases hmm : instance_to_mesh pr version with
      | ok m =>
        rw [hmm] at h
        exact ih _ e h
      | error e2 =>
        rw [hmm] at h
        injection h with he
        exact ⟨e2, he.symm⟩

/-- C10: the magic-number check of `load_blend_assets` slices
`bytes[0..7]`, which for a buffer of fewer than 7 bytes is an
out-of-bounds panic, not an `InvalidBlendFile` error; the
`InvalidBlendFile` error is produced exactly for buffers of length ≥ 7
whose first 7 bytes differ from `b"BLENDER"`. -/
theorem C10_magic_check (bytes : List Nat) (path : String) (file : BlendFileData) :
    (bytes.length < 7 → load_blend_assets bytes path file = .error .panicked) ∧
    (load_blend_assets bytes path file = .error (.invalidBlendFile path) ↔
      7 ≤ bytes.length ∧ bytes.take 7 ≠ magicBytes) := by
  constructor
  · intro h
    unfold load_blend_assets
    rw [if_pos h]
  · unfold load_blend_assets
    by_cases h7 : bytes.length < 7
    · rw [if_pos h7]
      constructor
      · intro hc
        cases hc
      · intro h
        omega
    · rw [if_neg h7]
      by_cases hm : bytes.take 7 ≠ magicBytes
      · rw [if_pos hm]
        exact ⟨fun _ => ⟨by omega, hm⟩, fun _ => rfl⟩
      · rw [if_neg hm]
        constructor
        · intro hc
          cases hl : loadMeshes file.version file.meshes [] with
          | error e =>
            rw [hl] at hc
            injection hc with he
            obtain ⟨e2, he2⟩ := loadMeshes_error_shape file.version file.meshes [] e hl
            rw [he2] at he
            cases he
          | ok ma =>
            rw [hl] at hc
            cases hc
        · intro h
          exact absurd h.2 (not_not.mpr (not_not.mp hm))

/-- C10 witness: a 1-byte buffer panics; a 7-byte buffer with a wrong
signature yields `InvalidBlendFile`. -/
theorem C10_magic_check_witness :
    load_blend_assets [0] "a.blend"
      { meshes := [], materials := [], version := (2, 93, 0) } = .error .panicked ∧
    load_blend_assets [9, 9, 9, 9, 9, 9, 9] "a.blend"
      { meshes := [], materials := [], version := (2, 93, 0) } =
      .error (.invalidBlendFile "a.blend") :=
  ⟨(C10_magic_check [0] "a.blend" _).1 (by decide),
   (C10_magic_check [9, 9, 9, 9, 9, 9, 9] "a.blend"
     { meshes := [], materials := [], version := (2, 93, 0) }).2.mpr
     ⟨by decide, by decide⟩⟩
